import Mathlib

/-!
Verification of the minimal multilayer-perceptron training core of the
DLpytorchScholar notebooks.

The notebooks build small feed-forward networks and train them with plain
stochastic gradient descent.  The pieces written by hand in the notebooks
(the sigmoid `activation`, the hand-written row-wise `softmax`, the
`torch.mm`-based manual forward pass, and the per-batch training loop
`zero_grad; forward; loss; backward; step`) are embedded directly from the
notebook cells.  Operations that the notebooks delegate to the framework
(`optim.SGD.step`, `nn.NLLLoss`, `nn.CrossEntropyLoss`, `nn.LogSoftmax`,
autograd gradient accumulation) are modelled from the specification, which
states their semantics explicitly; those definitions carry doc comments
starting with "Modelled from the spec".

Tensors are embedded as functions into the real numbers: a vector of width
k is `Fin k → ℝ` and a batch of m samples with k features is
`Fin m → Fin k → ℝ`.  Floating-point rounding is outside the model; the
real numbers play the role of exact arithmetic.
-/

namespace DLScholar

/-! ### Training-step state: parameter and gradient tensors

The trainer owns, for every scalar parameter slot, a current value and an
accumulated gradient.  `ι` indexes the scalar parameter slots of the whole
model (all weight and bias entries together); a batch is left abstract
because the data loader is an external collaborator. -/

/-- The mutable state touched by one training step: every parameter tensor
together with its gradient tensor, flattened over an index type ι of
scalar parameter slots. -/
structure TState (ι : Type) where
  params : ι → ℝ
  grads : ι → ℝ

/-- Modelled from the spec: `optimizer.zero_grad()` resets every gradient
tensor to zero and leaves the parameters untouched. -/
def zeroGrad {ι : Type} (s : TState ι) : TState ι :=
  { params := s.params, grads := fun _ => 0 }

/-- Modelled from the spec: `loss.backward()` ADDS the gradient of the
current batch loss into each gradient tensor (the notebook text documents
that repeated backward passes accumulate).  The gradient function
`g : (ι → ℝ) → β → (ι → ℝ)` maps the current parameters and the batch to
the gradient of the batch loss; autograd itself is framework code. -/
def backwardAcc {ι β : Type} (g : (ι → ℝ) → β → (ι → ℝ)) (b : β)
    (s : TState ι) : TState ι :=
  { params := s.params, grads := fun i => s.grads i + g s.params b i }

/-- Modelled from the spec: the plain SGD parameter update
`param ← param - lr * grad`, applied elementwise with a scalar learning
rate; no momentum and no adaptive state. -/
def sgdUpdate {ι : Type} (lr : ℝ) (param grad : ι → ℝ) : ι → ℝ :=
  fun i => param i - lr * grad i

/-- Modelled from the spec: `optimizer.step()` overwrites the parameters
with the SGD update and leaves the gradient tensors as they are. -/
def sgdStep {ι : Type} (lr : ℝ) (s : TState ι) : TState ι :=
  { params := sgdUpdate lr s.params s.grads, grads := s.grads }

/-- One body of the training loop of the training notebook:
`optimizer.zero_grad(); output = model.forward(images);
loss = criterion(output, labels); loss.backward(); optimizer.step()`.
The forward pass and the loss computation do not change parameters or
gradients, so on `TState` the body is zero-gradients, then backward
accumulation, then the SGD step. -/
def trainStep {ι β : Type} (g : (ι → ℝ) → β → (ι → ℝ)) (lr : ℝ)
    (s : TState ι) (b : β) : TState ι :=
  sgdStep lr (backwardAcc g b (zeroGrad s))

/-- The gradient tensor values the update step reads during one body of
the training loop: the gradients present after `zero_grad` and `backward`
have run on the incoming state. -/
def gradsReadByUpdate {ι β : Type} (g : (ι → ℝ) → β → (ι → ℝ)) (b : β)
    (s : TState ι) : ι → ℝ :=
  (backwardAcc g b (zeroGrad s)).grads

/-! ### The five phases of a training step, as a trace -/

/-- The five phases of one training step, in the order the loop body of
the training notebook executes them. -/
inductive Phase : Type
  | zeroPhase
  | forwardPhase
  | lossPhase
  | backwardPhase
  | updatePhase
deriving DecidableEq

/-- The phase trace of one loop body, read off statement by statement from
the training loop cell: `optimizer.zero_grad()`, `model.forward(images)`,
`criterion(output, labels)`, `loss.backward()`, `optimizer.step()`. -/
def stepTrace : List Phase :=
  [Phase.zeroPhase, Phase.forwardPhase, Phase.lossPhase,
   Phase.backwardPhase, Phase.updatePhase]

/-- The phase trace of one epoch over n batches: the loop body trace
repeated once per batch, in batch order. -/
def epochTrace : ℕ → List Phase
  | 0 => []
  | n + 1 => stepTrace ++ epochTrace n

/-- The state effect of each phase: the forward pass and the loss
computation read but do not write parameter or gradient tensors. -/
def phaseEffect {ι β : Type} (g : (ι → ℝ) → β → (ι → ℝ)) (lr : ℝ) (b : β)
    (p : Phase) (s : TState ι) : TState ι :=
  match p with
  | Phase.zeroPhase => zeroGrad s
  | Phase.forwardPhase => s
  | Phase.lossPhase => s
  | Phase.backwardPhase => backwardAcc g b s
  | Phase.updatePhase => sgdStep lr s

/-! ### The hand-written forward pass of the Part 2 notebook

The Part 2 notebook builds a network by hand: a sigmoid `activation`
function, `torch.mm` matrix products, and a row-wise `softmax`.  These are
transcribed directly.  A batch of m samples with n features is a function
`Fin m → Fin n → ℝ`. -/

/-- The sigmoid activation written by hand in the Part 2 notebook:
`def activation(x): return 1/(1 + torch.exp(-x))`. -/
noncomputable def activation (x : ℝ) : ℝ :=
  1 / (1 + Real.exp (-x))

/-- `torch.mm`: the matrix product of an m-by-n batch with an n-by-k
weight matrix, on shapes already known to match. -/
noncomputable def mmF {m n k : ℕ} (x : Fin m → Fin n → ℝ)
    (w : Fin n → Fin k → ℝ) : Fin m → Fin k → ℝ :=
  fun i j => ∑ t, x i t * w t j

/-- The hidden layer of the manual forward pass of the Part 2 notebook:
`h = activation(torch.mm(inputs, w1) + b1)`. -/
noncomputable def hiddenLayer {m n h : ℕ} (x : Fin m → Fin n → ℝ)
    (w1 : Fin n → Fin h → ℝ) (b1 : Fin h → ℝ) : Fin m → Fin h → ℝ :=
  fun i j => activation (mmF x w1 i j + b1 j)

/-- The manual forward pass of the Part 2 notebook:
`out = torch.mm(h, w2) + b2` applied to the hidden activations. -/
noncomputable def manualForward {m n h k : ℕ} (x : Fin m → Fin n → ℝ)
    (w1 : Fin n → Fin h → ℝ) (b1 : Fin h → ℝ)
    (w2 : Fin h → Fin k → ℝ) (b2 : Fin k → ℝ) : Fin m → Fin k → ℝ :=
  fun i j => mmF (hiddenLayer x w1 b1) w2 i j + b2 j

/-- The forward pass with a random-number-generator seed threaded through
it.  The forward code of the notebook calls no random operation
(`torch.randn` appears only when the parameters are created), so the seed
is returned unchanged and the output does not depend on it. -/
noncomputable def forwardWithSeed {m n h k : ℕ} (seed : ℕ)
    (x : Fin m → Fin n → ℝ) (w1 : Fin n → Fin h → ℝ) (b1 : Fin h → ℝ)
    (w2 : Fin h → Fin k → ℝ) (b2 : Fin k → ℝ) :
    (Fin m → Fin k → ℝ) × ℕ :=
  (manualForward x w1 b1 w2 b2, seed)

/-- The softmax written by hand in the Part 2 notebook:
`torch.exp(x)/torch.sum(torch.exp(x), dim=1).view(-1, 1)` — each entry is
exponentiated and divided by the sum of the exponentials of its row. -/
noncomputable def softmaxMat {m k : ℕ} (x : Fin m → Fin k → ℝ) :
    Fin m → Fin k → ℝ :=
  fun i j => Real.exp (x i j) / ∑ t, Real.exp (x i t)

/-- One row of the hand-written softmax: exp of each entry divided by the
sum of exp over the row. -/
noncomputable def softmaxRow {k : ℕ} (x : Fin k → ℝ) : Fin k → ℝ :=
  fun j => Real.exp (x j) / ∑ t, Real.exp (x t)

/-- Modelled from the spec: `nn.LogSoftmax(dim=1)` on one row,
`logsoftmax(z)_i = z_i - log (Σ_k e^(z_k))`. -/
noncomputable def logSoftmaxRow {k : ℕ} (x : Fin k → ℝ) : Fin k → ℝ :=
  fun j => x j - Real.log (∑ t, Real.exp (x t))

/-- Modelled from the spec: `nn.LogSoftmax(dim=1)` applied row-wise to a
batch of score rows. -/
noncomputable def logSoftmaxMat {m k : ℕ} (x : Fin m → Fin k → ℝ) :
    Fin m → Fin k → ℝ :=
  fun i => logSoftmaxRow (x i)

/-- Modelled from the spec: `nn.NLLLoss` with its default mean reduction:
the per-sample loss is minus the log-probability assigned to the true
class of that sample, and the batch loss is the mean of the per-sample
losses. -/
noncomputable def nllLoss {m k : ℕ} (p : Fin m → Fin k → ℝ)
    (y : Fin m → Fin k) : ℝ :=
  (∑ i, -(p i (y i))) / m

/-- Modelled from the spec: `nn.CrossEntropyLoss` on raw scores, mean
reduction: the per-sample loss is minus the score of the true class plus
the log of the sum of the exponentials of the row (the combined
log-softmax plus negative log-likelihood form). -/
noncomputable def crossEntropyLoss {m k : ℕ} (z : Fin m → Fin k → ℝ)
    (y : Fin m → Fin k) : ℝ :=
  (∑ i, -(z i (y i) - Real.log (∑ j, Real.exp (z i j)))) / m

/-! ### The loss configurations appearing in the training notebook

The training notebook hands a tensor to a loss in exactly two
configurations: a model ending in a bare `nn.Linear` whose raw scores go
to `nn.CrossEntropyLoss`, and a model ending in `nn.LogSoftmax(dim=1)`
whose log-probabilities go to `nn.NLLLoss`. -/

/-- What the final operation of the model produces: bare affine scores, a
softmax output, or a log-softmax output. -/
inductive FinalAct : Type
  | rawScores
  | softmaxOut
  | logSoftmaxOut
deriving DecidableEq

/-- The loss module applied to the tensor the model hands over. -/
inductive LossKind : Type
  | ceLoss
  | nlLoss
deriving DecidableEq

/-- A pairing of a final model operation with a loss module. -/
structure LossConfig : Type where
  final : FinalAct
  lossKind : LossKind
deriving DecidableEq

/-- The two configurations of the training notebook that hand a tensor to
a loss: raw scores into `nn.CrossEntropyLoss`, and log-softmax output into
`nn.NLLLoss`. -/
def supportedLossConfigs : List LossConfig :=
  [⟨FinalAct.rawScores, LossKind.ceLoss⟩,
   ⟨FinalAct.logSoftmaxOut, LossKind.nlLoss⟩]

/-- The tensor the final operation of the model hands to the loss, as a
function of the raw scores z. -/
noncomputable def handedToLoss (f : FinalAct) {m k : ℕ}
    (z : Fin m → Fin k → ℝ) : Fin m → Fin k → ℝ :=
  match f with
  | FinalAct.rawScores => z
  | FinalAct.softmaxOut => softmaxMat z
  | FinalAct.logSoftmaxOut => logSoftmaxMat z

/-- Application of a loss module to the tensor it is handed. -/
noncomputable def applyLossKind (l : LossKind) {m k : ℕ}
    (t : Fin m → Fin k → ℝ) (y : Fin m → Fin k) : ℝ :=
  match l with
  | LossKind.ceLoss => crossEntropyLoss t y
  | LossKind.nlLoss => nllLoss t y

/-- The scalar loss a configuration computes from raw scores z and true
labels y: the final operation runs on z and the loss module runs on the
tensor it is handed. -/
noncomputable def configLoss (c : LossConfig) {m k : ℕ}
    (z : Fin m → Fin k → ℝ) (y : Fin m → Fin k) : ℝ :=
  applyLossKind c.lossKind (handedToLoss c.final z) y

/-! ### The concrete scenario of the spec: a 4-3-2 network at zero

The spec fixes a 2-layer network with input dimension 4, hidden dimension
3 with sigmoid, output dimension 2 with log-softmax, all weights and
biases zero, on a batch of one sample. -/

/-- Modelled from the spec: the 4-3-2 scenario network with sigmoid hidden
activation and log-softmax output, built from the manual forward pass of
the Part 2 notebook, with every weight and bias initialized to zero. -/
noncomputable def scenarioNet (x : Fin 1 → Fin 4 → ℝ) : Fin 1 → Fin 2 → ℝ :=
  logSoftmaxMat
    (manualForward x (fun (_ : Fin 4) (_ : Fin 3) => (0 : ℝ)) (fun _ => 0)
      (fun (_ : Fin 3) (_ : Fin 2) => (0 : ℝ)) (fun _ => 0))

/-! ### Dynamically shaped tensors and eager shape checking

`torch.mm` raises a size-mismatch error when the trailing dimension of its
left argument differs from the leading dimension of its right argument.
To state the error-handling claim, tensors carry their shape at run time;
the entries are total functions so that no dependent indexing is needed
(entries outside the shape are never read). -/

/-- A dynamically shaped 2-dimensional tensor: a run-time shape and an
entry function (entries beyond the shape are irrelevant). -/
structure DTensor : Type where
  rows : ℕ
  cols : ℕ
  entry : ℕ → ℕ → ℝ

/-- Modelled from the spec: `torch.mm` fails with a fatal size-mismatch
error exactly when the trailing dimension of x differs from the leading
dimension of w; otherwise it returns the matrix product. -/
noncomputable def mmChecked (a b : DTensor) : Except Unit DTensor :=
  if a.cols = b.rows then
    Except.ok ⟨a.rows, b.cols,
      fun i j => ∑ t ∈ Finset.range a.cols, a.entry i t * b.entry t j⟩
  else
    Except.error ()

/-- The pointwise or row-wise nonlinearity a layer applies after its
affine transform; applying one never changes the shape and never fails. -/
noncomputable def applyActKind (a : FinalAct ⊕ Unit) (t : DTensor) : DTensor :=
  match a with
  | Sum.inl FinalAct.rawScores => t
  | Sum.inl FinalAct.softmaxOut =>
      ⟨t.rows, t.cols, fun i j =>
        Real.exp (t.entry i j) / ∑ u ∈ Finset.range t.cols, Real.exp (t.entry i u)⟩
  | Sum.inl FinalAct.logSoftmaxOut =>
      ⟨t.rows, t.cols, fun i j =>
        t.entry i j - Real.log (∑ u ∈ Finset.range t.cols, Real.exp (t.entry i u))⟩
  | Sum.inr () => ⟨t.rows, t.cols, fun i j => activation (t.entry i j)⟩

/-- An affine layer with a dynamically shaped weight matrix, a bias, and a
following nonlinearity (possibly the identity). -/
structure DLayer : Type where
  weight : DTensor
  bias : ℕ → ℝ
  act : FinalAct ⊕ Unit

/-- One layer of the forward pass on dynamically shaped tensors:
`torch.mm(x, W) + b` followed by the nonlinearity; fails exactly when
`torch.mm` fails. -/
noncomputable def layerForward (l : DLayer) (x : DTensor) : Except Unit DTensor :=
  match mmChecked x l.weight with
  | Except.error e => Except.error e
  | Except.ok z =>
      Except.ok (applyActKind l.act ⟨z.rows, z.cols, fun i j => z.entry i j + l.bias j⟩)

/-- The forward pass through a list of layers on dynamically shaped
tensors; stops with the error of the first failing layer. -/
noncomputable def forwardNet : List DLayer → DTensor → Except Unit DTensor
  | [], x => Except.ok x
  | l :: ls, x =>
      match layerForward l x with
      | Except.error e => Except.error e
      | Except.ok y => forwardNet ls y

/-- Shape compatibility of an input width with a chain of layers: at every
layer, the trailing dimension of the incoming tensor must equal the
leading dimension of the weight matrix. -/
def shapesOk : ℕ → List DLayer → Bool
  | _, [] => true
  | c, l :: ls => decide (c = l.weight.rows) && shapesOk l.weight.cols ls

/-- Whether an `Except` value is a success. -/
def exceptOk {ε α : Type} : Except ε α → Bool
  | Except.ok _ => true
  | Except.error _ => false

/-- One training-loop body over dynamically shaped tensors, recording the
phases that actually execute: zeroing the gradients always runs, then the
forward pass; when the forward pass raises, the loss, backward, and update
statements of the loop body never run, and the step ends with the error.
When the forward pass succeeds, all five phases run. -/
noncomputable def trainStepChecked (ls : List DLayer) (x : DTensor) :
    List Phase × Except Unit DTensor :=
  match forwardNet ls x with
  | Except.error e => ([Phase.zeroPhase, Phase.forwardPhase], Except.error e)
  | Except.ok out => (stepTrace, Except.ok out)

/-- The two affine layers of the manual network of the Part 2 notebook
(784 inputs, 256 hidden units with sigmoid, 10 outputs), with the weight
entries irrelevant to shape checking set to zero. -/
noncomputable def demoLayers : List DLayer :=
  [⟨⟨784, 256, fun _ _ => 0⟩, fun _ => 0, Sum.inr ()⟩,
   ⟨⟨256, 10, fun _ _ => 0⟩, fun _ => 0, Sum.inl FinalAct.rawScores⟩]

/-- A batch of 64 flattened images of width 784: shapes match `demoLayers`. -/
noncomputable def demoGoodInput : DTensor := ⟨64, 784, fun _ _ => 0⟩

/-- A batch whose trailing dimension 783 mismatches the leading dimension
784 of the first weight matrix of `demoLayers`. -/
noncomputable def demoBadInput : DTensor := ⟨64, 783, fun _ _ => 0⟩

end DLScholar

open DLScholar

/-! ### Supporting lemmas for the epoch trace -/

theorem DLScholar.epochTrace_length (n : ℕ) : (epochTrace n).length = 5 * n := by
  induction n with
  | zero => rfl
  | succ m ih =>
      simp [epochTrace, stepTrace, ih]
      ring

theorem DLScholar.epochTrace_count (n : ℕ) (p : Phase) :
    (epochTrace n).count p = n := by
  induction n with
  | zero => rfl
  | succ m ih =>
      have hone : stepTrace.count p = 1 := by
        cases p <;> rfl
      simp [epochTrace, List.count_append, hone, ih]
      ring

theorem DLScholar.epochTrace_get (n k : ℕ) (hk : k < n) :
    (epochTrace n).get? (5 * k) = some Phase.zeroPhase ∧
    (epochTrace n).get? (5 * k + 1) = some Phase.forwardPhase ∧
    (epochTrace n).get? (5 * k + 2) = some Phase.lossPhase ∧
    (epochTrace n).get? (5 * k + 3) = some Phase.backwardPhase ∧
    (epochTrace n).get? (5 * k + 4) = some Phase.updatePhase := by
  induction n generalizing k with
  | zero => omega
  | succ m ih =>
      cases k with
      | zero =>
          refine ⟨rfl, rfl, rfl, rfl, rfl⟩
      | succ j =>
          have hj : j < m := by omega
          have hrw : ∀ r : ℕ, 5 * (j + 1) + r = stepTrace.length + (5 * j + r) := by
            intro r
            simp [stepTrace]
            ring
          have hbase : 5 * (j + 1) = stepTrace.length + 5 * j := by
            simp [stepTrace]
            ring
          obtain ⟨h0, h1, h2, h3, h4⟩ := ih j hj
          refine ⟨?_, ?_, ?_, ?_, ?_⟩
          · rw [show epochTrace (m + 1) = stepTrace ++ epochTrace m from rfl,
              hbase, List.get?_append_right (Nat.le_add_right _ _)]
            simpa using h0
          · rw [show epochTrace (m + 1) = stepTrace ++ epochTrace m from rfl,
              hrw 1, List.get?_append_right (Nat.le_add_right _ _)]
            simpa using h1
          · rw [show epochTrace (m + 1) = stepTrace ++ epochTrace m from rfl,
              hrw 2, List.get?_append_right (Nat.le_add_right _ _)]
            simpa using h2
          · rw [show epochTrace (m + 1) = stepTrace ++ epochTrace m from rfl,
              hrw 3, List.get?_append_right (Nat.le_add_right _ _)]
            simpa using h3
          · rw [show epochTrace (m + 1) = stepTrace ++ epochTrace m from rfl,
              hrw 4, List.get?_append_right (Nat.le_add_right _ _)]
            simpa using h4



/-! ### C1: the SGD update changes each parameter by exactly -lr * grad -/

/-- C1: one invocation of the plain SGD update step changes every
parameter slot by exactly minus the learning rate times the freshly
computed gradient of that slot, and the update keeps no state across
steps: over two consecutive training-loop bodies, each step changes the
parameters by minus lr times the gradient computed for that step alone,
with no contribution from the previous step. -/
theorem C1_sgd_update_delta {ι β : Type}
    (g : (ι → ℝ) → β → (ι → ℝ)) (lr : ℝ) (param grad : ι → ℝ)
    (s : DLScholar.TState ι) (b1 b2 : β) :
    (∀ i, DLScholar.sgdUpdate lr param grad i - param i = -(lr * grad i)) ∧
    (∀ i, (DLScholar.trainStep g lr s b1).params i - s.params i
        = -(lr * g s.params b1 i)) ∧
    (∀ i, (DLScholar.trainStep g lr (DLScholar.trainStep g lr s b1) b2).params i
        - (DLScholar.trainStep g lr s b1).params i
        = -(lr * g (DLScholar.trainStep g lr s b1).params b2 i)) := by
  refine ⟨fun i => by simp only [DLScholar.sgdUpdate]; ring, fun i => ?_, fun i => ?_⟩
  · simp only [DLScholar.trainStep, DLScholar.sgdStep, DLScholar.sgdUpdate,
      DLScholar.backwardAcc, DLScholar.zeroGrad]
    ring
  · simp only [DLScholar.trainStep, DLScholar.sgdStep, DLScholar.sgdUpdate,
      DLScholar.backwardAcc, DLScholar.zeroGrad]
    ring

/-! ### C3: gradients read by the update are exactly the fresh gradients -/

/-- C3: during one training-loop body, no matter what stale gradients the
incoming state carries, the gradient tensor the update step reads equals
exactly the gradient of the current batch loss at the current parameters,
because the gradients are zeroed before the backward pass; consequently
the updated parameters are the incoming ones minus lr times that fresh
gradient. -/
theorem C3_fresh_gradients {ι β : Type}
    (g : (ι → ℝ) → β → (ι → ℝ)) (lr : ℝ) (s : DLScholar.TState ι) (b : β) :
    DLScholar.gradsReadByUpdate g b s = g s.params b ∧
    (DLScholar.trainStep g lr s b).params
      = fun i => s.params i - lr * g s.params b i := by
  constructor
  · funext i
    simp [DLScholar.gradsReadByUpdate, DLScholar.backwardAcc, DLScholar.zeroGrad]
  · funext i
    simp [DLScholar.trainStep, DLScholar.sgdStep, DLScholar.sgdUpdate,
      DLScholar.backwardAcc, DLScholar.zeroGrad]

/-! ### C4: the five phases run in strict order, once per batch -/

/-- C4: an epoch over n batches executes exactly 5 * n phases; every phase
occurs exactly n times (once per batch); within batch k the phases sit at
positions 5k .. 5k+4 in the strict order zero-gradients, forward, loss,
backward, update, so the update of step k (position 5k+4) comes after the
backward of step k (position 5k+3) and before the forward of step k+1
(position 5(k+1)+1); and folding the state effects of one body trace
yields exactly the training-step transition. -/
theorem C4_phase_order {ι β : Type}
    (g : (ι → ℝ) → β → (ι → ℝ)) (lr : ℝ) (s : DLScholar.TState ι) (b : β)
    (n k : ℕ) (hk : k < n) :
    (DLScholar.epochTrace n).length = 5 * n ∧
    (∀ p, (DLScholar.epochTrace n).count p = n) ∧
    ((DLScholar.epochTrace n).get? (5 * k) = some DLScholar.Phase.zeroPhase ∧
     (DLScholar.epochTrace n).get? (5 * k + 1) = some DLScholar.Phase.forwardPhase ∧
     (DLScholar.epochTrace n).get? (5 * k + 2) = some DLScholar.Phase.lossPhase ∧
     (DLScholar.epochTrace n).get? (5 * k + 3) = some DLScholar.Phase.backwardPhase ∧
     (DLScholar.epochTrace n).get? (5 * k + 4) = some DLScholar.Phase.updatePhase) ∧
    DLScholar.stepTrace.foldl
        (fun st ph => DLScholar.phaseEffect g lr b ph st) s
      = DLScholar.trainStep g lr s b := by
  refine ⟨DLScholar.epochTrace_length n, fun p => DLScholar.epochTrace_count n p,
    DLScholar.epochTrace_get n k hk, rfl⟩

/-- Witness for C4 at a concrete epoch of two batches, checking step
k = 1 of the trace and the fold on a concrete one-parameter state. -/
theorem C4_phase_order_witness :
    (1 : ℕ) < 2 ∧
    ((DLScholar.epochTrace 2).get? 9 = some DLScholar.Phase.updatePhase) := by
  have h := C4_phase_order (ι := Unit) (β := Unit)
    (fun p _ => p) 1 ⟨fun _ => 0, fun _ => 0⟩ () 2 1 (by decide)
  exact ⟨by decide, h.2.2.1.2.2.2.2⟩

/-! ### C5: the NLL loss is minus the mean true-class log-probability -/

/-- C5: for a batch of m samples, the negative log-likelihood loss on the
log-probabilities p and true labels y is exactly minus one over m times
the sum of the log-probabilities assigned to the true classes. -/
theorem C5_nll_loss_formula {m k : ℕ} (p : Fin m → Fin k → ℝ)
    (y : Fin m → Fin k) :
    nllLoss p y = -((1 / (m : ℝ)) * ∑ i, p i (y i)) := by
  simp only [nllLoss, Finset.sum_neg_distrib]
  ring

/-! ### C6: softmax rows are probability distributions -/

/-- C6: for a nonempty class dimension, exponentiating the log-softmax
output of a row gives exactly the softmax output of that row, and both
versions sum to exactly 1 over the class dimension, so each output row is
a probability distribution (exactly, in the real-number model of exact
arithmetic). -/
theorem C6_softmax_row_sums_to_one {k : ℕ} (hk : 0 < k) (x : Fin k → ℝ) :
    (∀ j, Real.exp (logSoftmaxRow x j) = softmaxRow x j) ∧
    (∑ j, softmaxRow x j = 1) ∧
    (∑ j, Real.exp (logSoftmaxRow x j) = 1) := by
  have hpos : 0 < ∑ t, Real.exp (x t) := by
    have hne : Nonempty (Fin k) := ⟨⟨0, hk⟩⟩
    exact Finset.sum_pos (fun t _ => Real.exp_pos (x t)) Finset.univ_nonempty
  have hexp : ∀ j, Real.exp (logSoftmaxRow x j) = softmaxRow x j := by
    intro j
    rw [show logSoftmaxRow x j = x j - Real.log (∑ t, Real.exp (x t)) from rfl]
    rw [Real.exp_sub, Real.exp_log hpos]
    rfl
  have hsum : ∑ j, softmaxRow x j = 1 := by
    simp only [softmaxRow]
    rw [← Finset.sum_div, div_self (ne_of_gt hpos)]
  refine ⟨hexp, hsum, ?_⟩
  calc ∑ j, Real.exp (logSoftmaxRow x j) = ∑ j, softmaxRow x j :=
        Finset.sum_congr rfl (fun j _ => hexp j)
    _ = 1 := hsum

/-- Witness for C6 on the concrete two-class row of zeros. -/
theorem C6_softmax_row_sums_to_one_witness :
    (0 : ℕ) < 2 ∧ (∑ j : Fin 2, softmaxRow (fun _ => (0 : ℝ)) j) = 1 :=
  ⟨by decide, (C6_softmax_row_sums_to_one (by decide) (fun _ => (0 : ℝ))).2.1⟩

/-! ### C10: the hand-written softmax is shift invariant -/

/-- C10: adding one scalar c to every entry of a row leaves the
hand-written softmax of that row unchanged, both for a single row and for
every row of a batch shifted by c. -/
theorem C10_softmax_shift_invariant {m k : ℕ} (x : Fin m → Fin k → ℝ)
    (v : Fin k → ℝ) (c : ℝ) :
    softmaxRow (fun j => v j + c) = softmaxRow v ∧
    softmaxMat (fun i j => x i j + c) = softmaxMat x := by
  constructor
  · funext j
    simp only [softmaxRow, Real.exp_add]
    rw [← Finset.sum_mul]
    exact mul_div_mul_right _ _ (Real.exp_ne_zero c)
  · funext i j
    simp only [softmaxMat, Real.exp_add]
    rw [← Finset.sum_mul]
    exact mul_div_mul_right _ _ (Real.exp_ne_zero c)

/-! ### C9: the forward pass is deterministic and uses no randomness -/

/-- C9: the forward pass is a pure function of the parameters and the
input: its output does not depend on the random seed (and the seed is
passed through unchanged, since the forward code calls no random
operation), and two invocations on equal parameters and equal inputs
return identical output. -/
theorem C9_forward_deterministic {m n p q : ℕ} (seed1 seed2 : ℕ)
    (x x2 : Fin m → Fin n → ℝ) (w1 w1b : Fin n → Fin p → ℝ)
    (b1 b1b : Fin p → ℝ) (w2 w2b : Fin p → Fin q → ℝ) (b2 b2b : Fin q → ℝ) :
    ((forwardWithSeed seed1 x w1 b1 w2 b2).1
      = (forwardWithSeed seed2 x w1 b1 w2 b2).1) ∧
    ((forwardWithSeed seed1 x w1 b1 w2 b2).2 = seed1) ∧
    (x = x2 → w1 = w1b → b1 = b1b → w2 = w2b → b2 = b2b →
      manualForward x w1 b1 w2 b2 = manualForward x2 w1b b1b w2b b2b) := by
  refine ⟨rfl, rfl, ?_⟩
  intro h1 h2 h3 h4 h5
  rw [h1, h2, h3, h4, h5]

/-- Witness for C9 on concrete 1-dimensional zero parameters and input. -/
theorem C9_forward_deterministic_witness :
    ((forwardWithSeed 0 (fun (_ : Fin 1) (_ : Fin 1) => (0 : ℝ))
        (fun (_ : Fin 1) (_ : Fin 1) => (0 : ℝ)) (fun _ => 0)
        (fun (_ : Fin 1) (_ : Fin 1) => (0 : ℝ)) (fun _ => 0)).1
      = (forwardWithSeed 7 (fun (_ : Fin 1) (_ : Fin 1) => (0 : ℝ))
        (fun (_ : Fin 1) (_ : Fin 1) => (0 : ℝ)) (fun _ => 0)
        (fun (_ : Fin 1) (_ : Fin 1) => (0 : ℝ)) (fun _ => 0)).1) ∧
    manualForward (fun (_ : Fin 1) (_ : Fin 1) => (0 : ℝ))
        (fun (_ : Fin 1) (_ : Fin 1) => (0 : ℝ)) (fun _ => 0)
        (fun (_ : Fin 1) (_ : Fin 1) => (0 : ℝ)) (fun _ => 0)
      = manualForward (fun (_ : Fin 1) (_ : Fin 1) => (0 : ℝ))
        (fun (_ : Fin 1) (_ : Fin 1) => (0 : ℝ)) (fun _ => 0)
        (fun (_ : Fin 1) (_ : Fin 1) => (0 : ℝ)) (fun _ => 0) :=
  ⟨(C9_forward_deterministic 0 7 (fun _ _ => 0) (fun _ _ => 0) (fun _ _ => 0)
      (fun _ _ => 0) (fun _ => 0) (fun _ => 0) (fun _ _ => 0) (fun _ _ => 0)
      (fun _ => 0) (fun _ => 0)).1,
   (C9_forward_deterministic 0 7 (fun _ _ => 0) (fun _ _ => 0) (fun _ _ => 0)
      (fun _ _ => 0) (fun _ => 0) (fun _ => 0) (fun _ _ => 0) (fun _ _ => 0)
      (fun _ => 0) (fun _ => 0)).2.2 rfl rfl rfl rfl rfl⟩

/-! ### C7: the zero-initialized 4-3-2 scenario outputs log(1/2) -/

/-- C7: with every weight and bias of the 4-3-2 scenario network set to
zero, the forward pass on any single-sample batch produces output
log-probability exactly log(1/2) for both classes. -/
theorem C7_zero_init_log_half (x : Fin 1 → Fin 4 → ℝ) (i : Fin 1) (j : Fin 2) :
    scenarioNet x i j = Real.log (1 / 2) := by
  have hzero : manualForward x (fun (_ : Fin 4) (_ : Fin 3) => (0 : ℝ))
      (fun _ => 0) (fun (_ : Fin 3) (_ : Fin 2) => (0 : ℝ)) (fun _ => 0) i
      = fun _ => (0 : ℝ) := by
    funext t
    simp [manualForward, mmF]
  have hrow : scenarioNet x i j = logSoftmaxRow (fun _ : Fin 2 => (0 : ℝ)) j := by
    rw [show scenarioNet x i j
        = logSoftmaxRow (manualForward x (fun (_ : Fin 4) (_ : Fin 3) => (0 : ℝ))
            (fun _ => 0) (fun (_ : Fin 3) (_ : Fin 2) => (0 : ℝ))
            (fun _ => 0) i) j from rfl, hzero]
  rw [hrow]
  simp only [logSoftmaxRow, Real.exp_zero]
  rw [Finset.sum_const, Finset.card_univ, Fintype.card_fin]
  norm_num
  rw [one_div, Real.log_inv]

/-! ### C2: what the final layer hands to the loss

The claim as frozen says every supported configuration hands row-wise
log-probabilities to the loss.  The CrossEntropyLoss configuration of the
training notebook hands raw scores instead (the loss applies log-softmax
internally), so the claim as stated fails; what holds is that the loss
always effectively operates on log-probabilities and that raw softmax
probabilities are never handed to a loss. -/

/-- Counterexample to C2 as stated: the raw-scores-into-CrossEntropyLoss
configuration is supported, and on the concrete all-zero score batch the
tensor it hands to the loss is not the log-softmax output (the zero tensor
differs from log-softmax of zero, which is minus log 2). -/
theorem C2_counterexample :
    (⟨FinalAct.rawScores, LossKind.ceLoss⟩ : LossConfig) ∈ supportedLossConfigs ∧
    handedToLoss FinalAct.rawScores (fun (_ : Fin 1) (_ : Fin 2) => (0 : ℝ))
      ≠ logSoftmaxMat (fun (_ : Fin 1) (_ : Fin 2) => (0 : ℝ)) := by
  refine ⟨by simp [supportedLossConfigs], fun hcontra => ?_⟩
  have h0 := congrFun (congrFun hcontra 0) 0
  rw [show handedToLoss FinalAct.rawScores
        (fun (_ : Fin 1) (_ : Fin 2) => (0 : ℝ)) 0 0 = (0 : ℝ) from rfl] at h0
  rw [show logSoftmaxMat (fun (_ : Fin 1) (_ : Fin 2) => (0 : ℝ)) 0 0
        = 0 - Real.log (∑ _t : Fin 2, Real.exp 0) from rfl] at h0
  rw [Real.exp_zero, Finset.sum_const, Finset.card_univ, Fintype.card_fin] at h0
  norm_num at h0

/-- C2 as amended: in every supported loss configuration of the training
notebook, the final operation never hands raw softmax probabilities to the
loss, and the loss effectively operates on row-wise log-probabilities: the
computed scalar equals the negative log-likelihood loss of the log-softmax
of the raw scores, either because the final layer already produced the
log-softmax (NLLLoss configuration) or because CrossEntropyLoss applies
log-softmax internally to the raw scores it is handed. -/
theorem C2_amended_loss_on_logprobs (c : LossConfig)
    (hc : c ∈ supportedLossConfigs) {m k : ℕ}
    (z : Fin m → Fin k → ℝ) (y : Fin m → Fin k) :
    c.final ≠ FinalAct.softmaxOut ∧
    configLoss c z y = nllLoss (logSoftmaxMat z) y := by
  have hcases : c = ⟨FinalAct.rawScores, LossKind.ceLoss⟩ ∨
      c = ⟨FinalAct.logSoftmaxOut, LossKind.nlLoss⟩ := by
    simpa [supportedLossConfigs] using hc
  rcases hcases with hce | hnl
  · subst hce
    refine ⟨by simp, ?_⟩
    rfl
  · subst hnl
    refine ⟨by simp, ?_⟩
    rfl

/-- Witness for the amended C2 at the CrossEntropyLoss configuration on a
concrete all-zero score batch. -/
theorem C2_amended_loss_on_logprobs_witness :
    ((⟨FinalAct.rawScores, LossKind.ceLoss⟩ : LossConfig) ∈ supportedLossConfigs) ∧
    configLoss ⟨FinalAct.rawScores, LossKind.ceLoss⟩
        (fun (_ : Fin 1) (_ : Fin 2) => (0 : ℝ)) (fun _ => 0)
      = nllLoss (logSoftmaxMat (fun (_ : Fin 1) (_ : Fin 2) => (0 : ℝ)))
        (fun _ => 0) :=
  ⟨by simp [supportedLossConfigs],
   (C2_amended_loss_on_logprobs ⟨FinalAct.rawScores, LossKind.ceLoss⟩
      (by simp [supportedLossConfigs])
      (fun (_ : Fin 1) (_ : Fin 2) => (0 : ℝ)) (fun _ => 0)).2⟩

/-! ### C8: shape mismatches are fatal at the first forward pass -/

theorem mmChecked_ok_of_eq (a b : DTensor) (h : a.cols = b.rows) :
    mmChecked a b = Except.ok ⟨a.rows, b.cols,
      fun i j => ∑ t ∈ Finset.range a.cols, a.entry i t * b.entry t j⟩ := by
  simp [mmChecked, h]

theorem mmChecked_error_of_ne (a b : DTensor) (h : ¬a.cols = b.rows) :
    mmChecked a b = Except.error () := by
  simp [mmChecked, h]

theorem applyActKind_cols (a : FinalAct ⊕ Unit) (t : DTensor) :
    (applyActKind a t).cols = t.cols := by
  rcases a with f | u
  · cases f <;> rfl
  · cases u
    rfl

theorem layerForward_ok_of_eq (l : DLayer) (x : DTensor)
    (h : x.cols = l.weight.rows) :
    layerForward l x = Except.ok (applyActKind l.act
      ⟨x.rows, l.weight.cols, fun i j =>
        (∑ t ∈ Finset.range x.cols, x.entry i t * l.weight.entry t j) + l.bias j⟩) := by
  rw [layerForward, mmChecked_ok_of_eq x l.weight h]

theorem layerForward_error_of_ne (l : DLayer) (x : DTensor)
    (h : ¬x.cols = l.weight.rows) :
    layerForward l x = Except.error () := by
  rw [layerForward, mmChecked_error_of_ne x l.weight h]

theorem forwardNet_ok_eq_shapesOk (ls : List DLayer) (x : DTensor) :
    exceptOk (forwardNet ls x) = shapesOk x.cols ls := by
  induction ls generalizing x with
  | nil => rfl
  | cons l ls ih =>
      by_cases hx : x.cols = l.weight.rows
      · rw [forwardNet, layerForward_ok_of_eq l x hx]
        have hcols : (applyActKind l.act
            ⟨x.rows, l.weight.cols, fun i j =>
              (∑ t ∈ Finset.range x.cols, x.entry i t * l.weight.entry t j)
                + l.bias j⟩).cols = l.weight.cols := applyActKind_cols _ _
        rw [show shapesOk x.cols (l :: ls)
            = (decide (x.cols = l.weight.rows) && shapesOk l.weight.cols ls) from rfl]
        rw [ih (applyActKind l.act
          ⟨x.rows, l.weight.cols, fun i j =>
            (∑ t ∈ Finset.range x.cols, x.entry i t * l.weight.entry t j)
              + l.bias j⟩), hcols]
        simp [hx]
      · rw [forwardNet, layerForward_error_of_ne l x hx]
        rw [show shapesOk x.cols (l :: ls)
            = (decide (x.cols = l.weight.rows) && shapesOk l.weight.cols ls) from rfl]
        simp [exceptOk, hx]

/-- C8: during one training-loop body on dynamically shaped tensors, a
shape mismatch at any affine layer (the trailing dimension of the incoming
tensor differing from the leading dimension of the weight matrix) makes
the step fail during the first forward pass: the outcome is a fatal error
and the loss, backward, and update phases never execute.  When every
dimension in the chain matches, no error is raised and all five phases
execute. -/
theorem C8_shape_mismatch_fatal (ls : List DLayer) (x : DTensor) :
    (shapesOk x.cols ls = false →
      exceptOk (trainStepChecked ls x).2 = false ∧
      (trainStepChecked ls x).1 = [Phase.zeroPhase, Phase.forwardPhase] ∧
      Phase.lossPhase ∉ (trainStepChecked ls x).1 ∧
      Phase.backwardPhase ∉ (trainStepChecked ls x).1 ∧
      Phase.updatePhase ∉ (trainStepChecked ls x).1) ∧
    (shapesOk x.cols ls = true →
      exceptOk (trainStepChecked ls x).2 = true ∧
      (trainStepChecked ls x).1 = stepTrace) := by
  have hfwd := forwardNet_ok_eq_shapesOk ls x
  constructor
  · intro hfalse
    rw [hfalse] at hfwd
    cases hres : forwardNet ls x with
    | ok out =>
        rw [hres] at hfwd
        exact absurd hfwd (by simp [exceptOk])
    | error e =>
        cases e
        rw [show trainStepChecked ls x
            = ([Phase.zeroPhase, Phase.forwardPhase],
               Except.error ()) from by rw [trainStepChecked, hres]]
        refine ⟨rfl, rfl, by simp, by simp, by simp⟩
  · intro htrue
    rw [htrue] at hfwd
    cases hres : forwardNet ls x with
    | error e =>
        rw [hres] at hfwd
        exact absurd hfwd (by simp [exceptOk])
    | ok out =>
        rw [show trainStepChecked ls x
            = (stepTrace, Except.ok out) from by rw [trainStepChecked, hres]]
        exact ⟨rfl, rfl⟩

/-- Witness for C8 on the concrete 784-256-10 manual network: an input of
trailing dimension 783 mismatches and the step errors during the forward
pass; an input of trailing dimension 784 matches and no error is raised. -/
theorem C8_shape_mismatch_fatal_witness :
    (shapesOk demoBadInput.cols demoLayers = false ∧
      exceptOk (trainStepChecked demoLayers demoBadInput).2 = false) ∧
    (shapesOk demoGoodInput.cols demoLayers = true ∧
      exceptOk (trainStepChecked demoLayers demoGoodInput).2 = true) :=
  ⟨⟨by decide, ((C8_shape_mismatch_fatal demoLayers demoBadInput).1 (by decide)).1⟩,
   ⟨by decide, ((C8_shape_mismatch_fatal demoLayers demoGoodInput).2 (by decide)).1⟩⟩
